import Mathlib

/-!
Shallow embedding of the wnacg-downloader core
(`src-tauri/src/download_manager.rs` and `src-tauri/src/wnacg_client.rs`),
together with theorems settling the frozen claims about it.

Machine integers (`i64`, `u32`) are modelled as `Int`/`Nat`: none of the
embedded code paths can overflow on the inputs considered (counters are
bounded by list lengths).  Fallible operations return `Except`/`Option`.
External effects (filesystem, HTTP, the `image` crate, `serde_json`) are
modelled as explicit oracle inputs so that every definition stays a pure,
executable function of its inputs.
-/

set_option maxRecDepth 10000

namespace Wnacg

/-- Decidable equality for `Except`, so that concrete runs of the fallible
embedded operations can be checked by `decide`. -/
instance {ε α : Type} [DecidableEq ε] [DecidableEq α] : DecidableEq (Except ε α) := fun a b =>
  match a, b with
  | Except.error e, Except.error e' => decidable_of_iff (e = e') (by simp)
  | Except.error _, Except.ok _ => isFalse (by simp)
  | Except.ok _, Except.error _ => isFalse (by simp)
  | Except.ok a, Except.ok b => decidable_of_iff (a = b) (by simp)

/-- Embedding of `DownloadTaskState` from download_manager.rs lines 49-57. -/
inductive DownloadTaskState
  | Pending
  | Downloading
  | Paused
  | Cancelled
  | Completed
  | Failed
  deriving DecidableEq, Repr

/-- Entry type `ImgInImgList` from types/img_list.rs: one entry of a gallery's image
list, whose `url` lacks the `https:` scheme prefix. -/
structure ImgInImgList where
  caption : String
  url : String
  deriving DecidableEq, Repr

/-- The fields of `Comic` (types/comic.rs) that the embedded operations
read: `id`, `title`, the serialization-transient `is_downloaded`, and
`img_list`.  The remaining fields (cover, category, tags, intro,
image_count) are never inspected by the download manager. -/
structure Comic where
  id : Int
  title : String
  isDownloaded : Option Bool
  imgList : List ImgInImgList
  deriving DecidableEq, Repr

/-- Model of Rust `str::ends_with`: byte-suffix test, which on valid UTF-8
coincides with the character-suffix test. -/
def strEndsWith (s suffix : String) : Bool :=
  suffix.toList.isSuffixOf s.toList

/-- download_manager.rs lines 210-217: the download plan.  Map each
`img_list` entry to its `url`, drop every url ending in `"shoucang.jpg"`,
and prefix `"https:"` to each survivor. -/
def buildImgUrls (c : Comic) : List String :=
  ((c.imgList.map ImgInImgList.url).filter
      (fun url => !(strEndsWith url "shoucang.jpg"))).map
    (fun url => "https:" ++ url)

/-- download_manager.rs lines 218-220: `total_img_count` is the length of
the download plan. -/
def totalImgCount (c : Comic) : Nat :=
  (buildImgUrls c).length

/-- Oracle for the effectful steps of `DownloadTask::download_comic`:
whether `create_dir_all` succeeds, whether writing `元数据.json` succeeds,
which image indices end up downloaded (an image task increments the counter
exactly when it either finds the file already present or fetches and writes
it successfully), and whether the final rename succeeds. -/
structure PipelineEnv where
  createDirOk : Bool
  saveMetadataOk : Bool
  imgSuccess : Nat → Bool
  renameOk : Bool

/-- Observable outcome of one run of `download_comic`: the state the
pipeline itself sent (`none` when it returned without sending one), the
`download_task` events it emitted at comic granularity (each `set_state`
in the pipeline is immediately followed by `emit_download_task_event`),
and the two counters at join time. -/
structure PipelineResult where
  finalState : Option DownloadTaskState
  events : List DownloadTaskState
  downloaded : Nat
  total : Nat
  deriving DecidableEq, Repr

/-- Embedding of `DownloadTask::download_comic` (download_manager.rs lines
206-283).  Source order: build the plan and store `total_img_count`; create
the temp dir (on error: set `Failed`, emit, return); clean the temp dir (no
state effect); save the metadata (on error: log and `return` — note: no
state change and no event, unlike the neighbouring error paths); spawn and
join the image tasks; if `downloaded_img_count != total_img_count` set
`Failed` and emit; else rename (on error set `Failed` and emit); else set
`Completed` and emit. -/
def downloadComic (env : PipelineEnv) (c : Comic) : PipelineResult :=
  let total := totalImgCount c
  if env.createDirOk then
    if env.saveMetadataOk then
      let downloaded := ((List.range total).filter env.imgSuccess).length
      if downloaded = total then
        if env.renameOk then
          ⟨some DownloadTaskState.Completed, [DownloadTaskState.Completed], downloaded, total⟩
        else
          ⟨some DownloadTaskState.Failed, [DownloadTaskState.Failed], downloaded, total⟩
      else
        ⟨some DownloadTaskState.Failed, [DownloadTaskState.Failed], downloaded, total⟩
    else
      ⟨none, [], 0, total⟩
  else
    ⟨some DownloadTaskState.Failed, [DownloadTaskState.Failed], 0, total⟩

/-- Enum `DownloadFormat` from types/download_format.rs (declared by
types/mod.rs; the file itself is absent from src/).  Variants are fixed by
their uses in wnacg_client.rs lines 276-281. -/
inductive DownloadFormat
  | Jpeg
  | Png
  | Webp
  | Original
  deriving DecidableEq, Repr

/-- Modelled from the spec: `DownloadFormat::extension` lives in the
missing types/download_format.rs.  Its result type is forced to
`Option<&str>` by `if let Some(extension) = download_format.extension()`
(download_manager.rs line 560) and `Some(ext) == extension` (line 340).
Spec §4.4 says the skip filename `{index}.{ext}` exists only "when
`DownloadFormat` is concrete (not `Original`)", so `Original ↦ none`, and
the extensions are `jpg`, `png`, `webp` (§4.4, §6). -/
def DownloadFormat.extension : DownloadFormat → Option String
  | DownloadFormat.Jpeg => some "jpg"
  | DownloadFormat.Png => some "png"
  | DownloadFormat.Webp => some "webp"
  | DownloadFormat.Original => none

/-- Characters of a file name after its final `'.'`. -/
def afterLastDot (name : List Char) : List Char :=
  (name.reverse.takeWhile (fun c => !(c == '.'))).reverse

/-- Model of Rust `Path::extension()` on a plain file name: `none` when the
name has no `'.'` beyond position 0 (a leading dot marks a hidden file, not
an extension), otherwise the portion after the final `'.'`.  The
`OsStr::to_str` step of the source always succeeds here because modelled
names are unicode strings. -/
def pathExtension (name : String) : Option String :=
  match name.toList with
  | [] => none
  | _ :: rest =>
    if rest.contains '.' then some (afterLastDot rest).asString else none

/-- The keep-test of `DownloadTask::clean_temp_download_dir`
(download_manager.rs lines 335-340): a file is kept iff it has an
extension, convertible to UTF-8, equal to `download_format.extension()`. -/
def shouldKeep (fmt : DownloadFormat) (file : String) : Bool :=
  match pathExtension file with
  | some ext => some ext == fmt.extension
  | none => false

/-- Embedding of `DownloadTask::clean_temp_download_dir`
(download_manager.rs lines 318-357) on the list of file names found in the
temp directory: the files still present after cleaning are exactly those
passing `shouldKeep`; all others are removed. -/
def cleanTempDownloadDirKeeps (fmt : DownloadFormat) (files : List String) : List String :=
  files.filter (shouldKeep fmt)

/-! ### DownloadManager registry model

A `DownloadTask` as observed through the registry: its immutable comic
snapshot, the current value of the `watch` state channel, and whether any
receiver of that channel is still alive.  `tokio::sync::watch::Sender::send`
succeeds and stores the new value while at least one receiver exists;
once every receiver has been dropped (the task's `process` loop exited and
all its image tasks finished) `send` returns an error and leaves the stored
value unchanged.  `DownloadTask::set_state` (download_manager.rs lines
438-445) only logs that error. -/

structure DownloadTask where
  comic : Comic
  state : DownloadTaskState
  hasReceiver : Bool
  deriving DecidableEq, Repr

/-- Embedding of `DownloadTask::set_state`: send on the state channel; on send failure
(no receivers) the value is unchanged and the error is only logged. -/
def setState (t : DownloadTask) (s : DownloadTaskState) : DownloadTask :=
  if t.hasReceiver then { t with state := s } else t

/-- The registry `download_tasks : HashMap<i64, DownloadTask>`, modelled as
an association list (the map holds at most one entry per key; iteration
order is irrelevant to every embedded operation). -/
abbrev Registry := List (Int × DownloadTask)

/-- Model of `HashMap::get`. -/
def lookupTask : Registry → Int → Option DownloadTask
  | [], _ => none
  | (k, t) :: rest, cid => if k = cid then some t else lookupTask rest cid

/-- Replace the first entry with the given key. -/
def updateTask : Registry → Int → DownloadTask → Registry
  | [], _, _ => []
  | (k, t) :: rest, cid, t' =>
    if k = cid then (k, t') :: rest else (k, t) :: updateTask rest cid t'

/-- Model of `HashMap::insert`: overwrite the entry when the key is present,
otherwise add one. -/
def insertTask (rs : Registry) (cid : Int) (t : DownloadTask) : Registry :=
  if (lookupTask rs cid).isSome then updateTask rs cid t else rs ++ [(cid, t)]

/-- Number of registry entries stored under a key. -/
def countKey (rs : Registry) (cid : Int) : Nat :=
  (rs.filter (fun p => p.1 == cid)).length

/-- Embedding of `DownloadTask::new` (download_manager.rs lines 164-175): a fresh task
starts in `Pending`; its spawned `process` loop subscribes a receiver. -/
def freshTask (c : Comic) : DownloadTask :=
  ⟨c, DownloadTaskState.Pending, true⟩

/-- The `matches!(state, Pending | Downloading | Paused)` test of
`create_download_task` (download_manager.rs line 87). -/
def isLive : DownloadTaskState → Bool
  | DownloadTaskState.Pending => true
  | DownloadTaskState.Downloading => true
  | DownloadTaskState.Paused => true
  | _ => false

/-- The `matches!(task_state, Failed | Cancelled | Completed)` test of
`resume_download_task` (download_manager.rs line 114). -/
def isTerminal : DownloadTaskState → Bool
  | DownloadTaskState.Failed => true
  | DownloadTaskState.Cancelled => true
  | DownloadTaskState.Completed => true
  | _ => false

/-- Embedding of `DownloadManager::create_download_task` (download_manager.rs lines
80-94).  Returns the new registry and whether a new task was constructed
and spawned. -/
def createDownloadTask (rs : Registry) (c : Comic) : Registry × Bool :=
  match lookupTask rs c.id with
  | some t =>
    if isLive t.state then (rs, false)
    else (insertTask rs c.id (freshTask c), true)
  | none => (insertTask rs c.id (freshTask c), true)

/-- The only error the registry operations produce: no task under the id. -/
inductive ManagerErr
  | NotFound
  deriving DecidableEq, Repr

/-- Embedding of `DownloadManager::pause_download_task` (download_manager.rs lines
96-103). -/
def pauseDownloadTask (rs : Registry) (cid : Int) : Except ManagerErr Registry :=
  match lookupTask rs cid with
  | none => Except.error ManagerErr.NotFound
  | some t => Except.ok (updateTask rs cid (setState t DownloadTaskState.Paused))

/-- Embedding of `DownloadManager::cancel_download_task` (download_manager.rs lines
129-136). -/
def cancelDownloadTask (rs : Registry) (cid : Int) : Except ManagerErr Registry :=
  match lookupTask rs cid with
  | none => Except.error ManagerErr.NotFound
  | some t => Except.ok (updateTask rs cid (setState t DownloadTaskState.Cancelled))

/-- Embedding of `DownloadManager::resume_download_task` (download_manager.rs lines
105-127): unknown id → `NotFound`; terminal state → re-create a task from
the stored comic snapshot via `create_download_task`; otherwise send
`Pending`. -/
def resumeDownloadTask (rs : Registry) (cid : Int) : Except ManagerErr Registry :=
  match lookupTask rs cid with
  | none => Except.error ManagerErr.NotFound
  | some t =>
    if isTerminal t.state then Except.ok (createDownloadTask rs t.comic).1
    else Except.ok (updateTask rs cid (setState t DownloadTaskState.Pending))

/-! ### WnacgClient: image fetch -/

/-- The `image::ImageFormat` variants reachable in
`WnacgClient::get_img_data_and_format`. -/
inductive ImageFormat
  | Jpeg
  | Png
  | WebP
  deriving DecidableEq, Repr

/-- The error outcomes of `get_img_data_and_format` (each an `anyhow`
error in the source, classified per spec §7): 429, other non-200 statuses,
missing / unrecognized `content-type`, and failure of the in-memory
decode/re-encode. -/
inductive ClientError
  | RateLimited
  | Protocol (status : Nat) (body : List Nat)
  | ParseNoContentType
  | ParseContentType (contentType : String)
  | ConvertError
  deriving DecidableEq, Repr

/-- An HTTP response for an image request: status code, the `content-type`
header (when present; the source's `to_str` step always succeeds here
because modelled headers are unicode strings), and the body bytes. -/
structure ImgResponse where
  status : Nat
  contentType : Option String
  body : List Nat
  deriving DecidableEq, Repr

/-- wnacg_client.rs lines 268-273: content-type → original format. -/
def contentTypeFormat (ct : String) : Option ImageFormat :=
  if ct = "image/jpeg" then some ImageFormat.Jpeg
  else if ct = "image/png" then some ImageFormat.Png
  else if ct = "image/webp" then some ImageFormat.WebP
  else none

/-- wnacg_client.rs lines 276-281: the target format per configuration. -/
def targetFormat (fmt : DownloadFormat) (original : ImageFormat) : ImageFormat :=
  match fmt with
  | DownloadFormat.Jpeg => ImageFormat.Jpeg
  | DownloadFormat.Png => ImageFormat.Png
  | DownloadFormat.Webp => ImageFormat.WebP
  | DownloadFormat.Original => original

/-- Embedding of `WnacgClient::get_img_data_and_format` (wnacg_client.rs
lines 241-304).  The `image` crate's decode + re-encode (lines 287-301) is
an oracle `convert bytes target`, `none` covering both a failed
`load_from_memory` and a failed `write_to`. -/
def getImgDataAndFormat (convert : List Nat → ImageFormat → Option (List Nat))
    (fmt : DownloadFormat) (resp : ImgResponse) :
    Except ClientError (List Nat × ImageFormat) :=
  if resp.status = 429 then Except.error ClientError.RateLimited
  else if resp.status ≠ 200 then Except.error (ClientError.Protocol resp.status resp.body)
  else
    match resp.contentType with
    | none => Except.error ClientError.ParseNoContentType
    | some ct =>
      match contentTypeFormat ct with
      | none => Except.error (ClientError.ParseContentType ct)
      | some original =>
        let target := targetFormat fmt original
        if original = target then Except.ok (resp.body, original)
        else
          match convert resp.body target with
          | none => Except.error ClientError.ConvertError
          | some data => Except.ok (data, target)

/-! ### WnacgClient: image-list extraction -/

/-- Split on `'\n'`, producing one chunk more than there are separators. -/
def splitNl : List Char → List (List Char)
  | [] => [[]]
  | c :: rest =>
    let r := splitNl rest
    if c = '\n' then [] :: r
    else
      match r with
      | [] => [[c]]
      | h :: t => (c :: h) :: t

/-- Strip one trailing `'\r'`. -/
def stripCr (l : List Char) : List Char :=
  if l.getLast? = some '\r' then l.dropLast else l

/-- Model of Rust `str::lines`: split on `'\n'`, strip a `'\r'` preceding
each `'\n'`, and produce no final empty line for a trailing `'\n'`. -/
def rustLines (cs : List Char) : List (List Char) :=
  let chunks := splitNl cs
  (chunks.dropLast.map stripCr) ++
    (match chunks.getLast? with
     | some [] => []
     | some l => [l]
     | none => [])

/-- Replace, left to right, every non-overlapping occurrence of `pat` by
`rep`, with fuel bounding the recursion; `replaceAll` supplies enough fuel
for each step to consume at least one character (all patterns used in the
embedding are nonempty). -/
def replaceAllAux (pat rep : List Char) : Nat → List Char → List Char
  | _, [] => []
  | 0, s => s
  | fuel + 1, c :: rest =>
    if pat.isPrefixOf (c :: rest) then
      rep ++ replaceAllAux pat rep fuel ((c :: rest).drop pat.length)
    else
      c :: replaceAllAux pat rep fuel rest

/-- Model of Rust `str::replace` for nonempty patterns. -/
def replaceAll (pat rep s : List Char) : List Char :=
  if pat.isEmpty then s else replaceAllAux pat rep s.length s

/-- Model of Rust `str::contains` for a literal pattern: the pattern is a
prefix of some suffix. -/
def containsSeq (pat : List Char) : List Char → Bool
  | [] => pat.isEmpty
  | c :: rest => pat.isPrefixOf (c :: rest) || containsSeq pat rest

/-- The literal searched for by `get_img_list` (wnacg_client.rs line 173). -/
def imglistMarker : List Char := "var imglist = ".toList

/-- wnacg_client.rs lines 171-174: the first line containing the marker. -/
def findImglistLine (body : List Char) : Option (List Char) :=
  (rustLines body).find? (fun l => containsSeq imglistMarker l)

/-- Index of the first `'['` (`str::find`).  The source works with byte
indices; since both brackets are ASCII, the slice delimited by them is the
same text in character indices. -/
def lbracketIdx (l : List Char) : Option Nat :=
  l.findIdx? (fun c => c == '[')

/-- Index of the last `']'` (`str::rfind`). -/
def rbracketIdx (l : List Char) : Option Nat :=
  match l.reverse.findIdx? (fun c => c == ']') with
  | none => none
  | some k => some (l.length - 1 - k)

/-- wnacg_client.rs lines 183-187: quote the bare `url:` and `caption:`
keys, delete `fast_img_host+`, and turn each backslash-quote pair into a
bare quote, in source order. -/
def transformImglist (cs : List Char) : List Char :=
  replaceAll "\\\"".toList "\"".toList
    (replaceAll "fast_img_host+".toList []
      (replaceAll "caption:".toList "\"caption\":".toList
        (replaceAll "url:".toList "\"url\":".toList cs)))

/-- The error outcomes of `get_img_list`'s extraction (each a `context`
message naming the missing piece in the source). -/
inductive ImglistParseError
  | NoImglistLine
  | NoLBracket
  | NoRBracket
  | DecodeFailed
  deriving DecidableEq, Repr

/-- Embedding of the extraction part of `WnacgClient::get_img_list`
(wnacg_client.rs lines 170-191), with `serde_json::from_str::<ImgList>` as
an oracle `decode`.  The slice `[start..=end]` is inclusive of both
brackets. -/
def getImgList (decode : List Char → Option (List ImgInImgList)) (body : List Char) :
    Except ImglistParseError (List ImgInImgList) :=
  match findImglistLine body with
  | none => Except.error ImglistParseError.NoImglistLine
  | some line =>
    match lbracketIdx line with
    | none => Except.error ImglistParseError.NoLBracket
    | some s =>
      match rbracketIdx line with
      | none => Except.error ImglistParseError.NoRBracket
      | some e =>
        match decode (transformImglist ((line.drop s).take (e + 1 - s))) with
        | none => Except.error ImglistParseError.DecodeFailed
        | some imgs => Except.ok imgs

/-! ### Concrete fixtures -/

/-- The comic of spec §8 scenario 1: two real images and the trailing
sentinel. -/
def comicEx : Comic :=
  ⟨1, "t", none, [⟨"01", "//h/a.jpg"⟩, ⟨"02", "//h/b.jpg"⟩, ⟨"03", "//h/shoucang.jpg"⟩]⟩

/-- A task whose run ended in `Completed`: its `process` loop has exited,
so no receiver of its state channel remains. -/
def deadCompletedTask : DownloadTask := ⟨comicEx, DownloadTaskState.Completed, false⟩

def regDead : Registry := [(1, deadCompletedTask)]

/-- A task currently in its coordination loop (receiver alive). -/
def liveDownloadingTask : DownloadTask := ⟨comicEx, DownloadTaskState.Downloading, true⟩

def regLive : Registry := [(1, liveDownloadingTask)]

/-- The wedged task the metadata-write bug produces: `download_comic`
returned after a failed manifest write without sending a state, the loop
broke, and the state channel reads `Downloading` with no receivers left. -/
def wedgedTask : DownloadTask := ⟨comicEx, DownloadTaskState.Downloading, false⟩

def regWedged : Registry := [(1, wedgedTask)]

/-! ### Pipeline fixtures -/

/-- All effects succeed. -/
def envAllOk : PipelineEnv := ⟨true, true, fun _ => true, true⟩

/-- Writing `元数据.json` fails; everything else would succeed. -/
def envMetaFail : PipelineEnv := ⟨true, false, fun _ => true, true⟩

/-- Every image downloads but the final rename fails. -/
def envRenameFail : PipelineEnv := ⟨true, true, fun _ => true, false⟩

/-- The image format a concrete `DownloadFormat` denotes (`Original`
denotes none in particular). -/
def concreteFormat : DownloadFormat → Option ImageFormat
  | DownloadFormat.Jpeg => some ImageFormat.Jpeg
  | DownloadFormat.Png => some ImageFormat.Png
  | DownloadFormat.Webp => some ImageFormat.WebP
  | DownloadFormat.Original => none

/-- A conversion oracle returning fixed bytes, for concrete runs. -/
def convertConst : List Nat → ImageFormat → Option (List Nat) := fun _ _ => some [9]

/-- A gallery body whose single line embeds `var imglist = [url:1]`. -/
def imglistBodyEx : List Char := "var imglist = [url:1]".toList

def imglistLineEx : List Char := "var imglist = [url:1]".toList

/-- A decode oracle recognizing exactly the transformed slice. -/
def decodeEx : List Char → Option (List ImgInImgList) := fun cs =>
  if cs = "[\"url\":1]".toList then some [⟨"", "u"⟩] else none

/-! ### Registry lemmas -/

theorem lookupTask_update_self (rs : Registry) (cid : Int) (t t' : DownloadTask)
    (h : lookupTask rs cid = some t) :
    lookupTask (updateTask rs cid t') cid = some t' := by
  induction rs with
  | nil => simp [lookupTask] at h
  | cons p rest ih =>
    obtain ⟨k, v⟩ := p
    by_cases hk : k = cid
    · simp [lookupTask, updateTask, hk]
    · simp only [lookupTask, updateTask, hk, if_false] at h ⊢
      exact ih h

theorem updateTask_lookup_same (rs : Registry) (cid : Int) (t : DownloadTask)
    (h : lookupTask rs cid = some t) :
    updateTask rs cid t = rs := by
  induction rs with
  | nil => rfl
  | cons p rest ih =>
    obtain ⟨k, v⟩ := p
    by_cases hk : k = cid
    · simp only [lookupTask, hk, if_true] at h
      injection h with h
      simp [updateTask, hk, h]
    · simp only [lookupTask, hk, if_false] at h
      simp [updateTask, hk, ih h]

theorem lookupTask_append_single (rs : Registry) (cid : Int) (t : DownloadTask)
    (h : lookupTask rs cid = none) :
    lookupTask (rs ++ [(cid, t)]) cid = some t := by
  induction rs with
  | nil => simp [lookupTask]
  | cons p rest ih =>
    obtain ⟨k, v⟩ := p
    by_cases hk : k = cid
    · simp [lookupTask, hk] at h
    · simp only [lookupTask, hk, if_false, List.cons_append] at h ⊢
      exact ih h

theorem lookupTask_insert (rs : Registry) (cid : Int) (t : DownloadTask) :
    lookupTask (insertTask rs cid t) cid = some t := by
  unfold insertTask
  cases h : lookupTask rs cid with
  | none => simp [h, lookupTask_append_single rs cid t h]
  | some v => simp [h, lookupTask_update_self rs cid v t h]

theorem countKey_cons (k : Int) (v : DownloadTask) (rest : Registry) (cid : Int) :
    countKey ((k, v) :: rest) cid = (if k = cid then 1 else 0) + countKey rest cid := by
  by_cases hk : k = cid
  · simp [countKey, List.filter_cons, hk]
    omega
  · simp [countKey, List.filter_cons, hk]

theorem countKey_update (rs : Registry) (cid : Int) (t' : DownloadTask) :
    countKey (updateTask rs cid t') cid = countKey rs cid := by
  induction rs with
  | nil => rfl
  | cons p rest ih =>
    obtain ⟨k, v⟩ := p
    by_cases hk : k = cid <;>
      simp [updateTask, hk, countKey_cons, ih]

theorem countKey_append_single (rs : Registry) (cid : Int) (t : DownloadTask) :
    countKey (rs ++ [(cid, t)]) cid = countKey rs cid + 1 := by
  simp [countKey, List.filter_append]

theorem countKey_eq_zero (rs : Registry) (cid : Int)
    (h : lookupTask rs cid = none) : countKey rs cid = 0 := by
  induction rs with
  | nil => rfl
  | cons p rest ih =>
    obtain ⟨k, v⟩ := p
    by_cases hk : k = cid
    · simp [lookupTask, hk] at h
    · simp only [lookupTask, hk, if_false] at h
      simp [countKey_cons, hk, ih h]

theorem countKey_pos (rs : Registry) (cid : Int) (t : DownloadTask)
    (h : lookupTask rs cid = some t) : 1 ≤ countKey rs cid := by
  induction rs with
  | nil => simp [lookupTask] at h
  | cons p rest ih =>
    obtain ⟨k, v⟩ := p
    by_cases hk : k = cid
    · simp [countKey_cons, hk]
    · simp only [lookupTask, hk, if_false] at h
      have := ih h
      simp [countKey_cons, hk]
      omega

theorem isTerminal_not_live (s : DownloadTaskState) (h : isTerminal s = true) :
    isLive s = false := by
  cases s <;> simp_all [isTerminal, isLive]

/-! ### Claim C4 -/

/-- Counterexample to C4 as stated: the registry holds a task for id 1
whose run finished in `Completed` (no channel receivers remain).  `pause`
returns `Ok` but the task's observable state is still `Completed`, not
`Paused` — so `pause` does not set the state "regardless of the task's
current state". -/
theorem c4_pause_dead_task_cex :
    pauseDownloadTask regDead 1 = Except.ok regDead ∧
    (lookupTask regDead 1).map DownloadTask.state ≠ some DownloadTaskState.Paused := by
  decide

/-- C4 (amended): `pause(id)` returns `NotFound` iff `id` is absent from
the registry; otherwise it returns `Ok` after sending `Paused` on the
task's state channel, which sets the observable state to `Paused` exactly
while the task still holds a channel receiver — once no receivers remain
the send fails, is only logged, and the state is unchanged. -/
theorem c4_pause_behavior (rs : Registry) (cid : Int) :
    (pauseDownloadTask rs cid = Except.error ManagerErr.NotFound ↔ lookupTask rs cid = none) ∧
    (∀ t, lookupTask rs cid = some t →
      pauseDownloadTask rs cid =
        Except.ok (updateTask rs cid (setState t DownloadTaskState.Paused)) ∧
      (t.hasReceiver = true →
        (lookupTask (updateTask rs cid (setState t DownloadTaskState.Paused)) cid).map
            DownloadTask.state = some DownloadTaskState.Paused) ∧
      (t.hasReceiver = false →
        lookupTask (updateTask rs cid (setState t DownloadTaskState.Paused)) cid = some t)) := by
  constructor
  · cases h : lookupTask rs cid <;> simp [pauseDownloadTask, h]
  · intro t ht
    refine ⟨by simp [pauseDownloadTask, ht], ?_, ?_⟩
    · intro hr
      rw [lookupTask_update_self rs cid t _ ht]
      simp [setState, hr]
    · intro hr
      rw [lookupTask_update_self rs cid t _ ht]
      simp [setState, hr]

/-- Witness for `c4_pause_behavior` at a live `Downloading` task. -/
theorem c4_pause_behavior_witness :
    (lookupTask (updateTask regLive 1 (setState liveDownloadingTask DownloadTaskState.Paused)) 1).map
        DownloadTask.state = some DownloadTaskState.Paused :=
  ((c4_pause_behavior regLive 1).2 liveDownloadingTask (by decide)).2.1 rfl

/-! ### Claim C5 -/

/-- Counterexample to C5 as stated: a task wedged in `Downloading` with no
channel receivers (the state the manifest-write bug leaves behind).
`resume` returns `Ok` but the state is not set to `Pending`. -/
theorem c5_resume_wedged_cex :
    resumeDownloadTask regWedged 1 = Except.ok regWedged ∧
    (lookupTask regWedged 1).map DownloadTask.state ≠ some DownloadTaskState.Pending := by
  decide

/-- C5 (amended): `resume(id)` returns `NotFound` iff `id` is absent.  If
the task's state is terminal (`Completed | Cancelled | Failed`), a fresh
task in `Pending` built from the stored comic snapshot overwrites the
registry entry under the same id.  Otherwise `Pending` is sent on the
task's state channel, which updates the observable state exactly while the
task still holds a receiver; a task whose loop already exited keeps its
old state. -/
theorem c5_resume_behavior (rs : Registry) (cid : Int) :
    (resumeDownloadTask rs cid = Except.error ManagerErr.NotFound ↔ lookupTask rs cid = none) ∧
    (∀ t, lookupTask rs cid = some t →
      (isTerminal t.state = true → t.comic.id = cid →
        resumeDownloadTask rs cid = Except.ok (insertTask rs cid (freshTask t.comic)) ∧
        lookupTask (insertTask rs cid (freshTask t.comic)) cid = some (freshTask t.comic) ∧
        (freshTask t.comic).state = DownloadTaskState.Pending) ∧
      (isTerminal t.state = false →
        resumeDownloadTask rs cid =
          Except.ok (updateTask rs cid (setState t DownloadTaskState.Pending)) ∧
        (t.hasReceiver = true →
          (lookupTask (updateTask rs cid (setState t DownloadTaskState.Pending)) cid).map
              DownloadTask.state = some DownloadTaskState.Pending) ∧
        (t.hasReceiver = false →
          lookupTask (updateTask rs cid (setState t DownloadTaskState.Pending)) cid = some t))) := by
  constructor
  · cases h : lookupTask rs cid with
    | none => simp [resumeDownloadTask, h]
    | some t =>
      by_cases hterm : isTerminal t.state = true <;> simp [resumeDownloadTask, h, hterm]
  · intro t ht
    constructor
    · intro hterm hid
      have hcreate : createDownloadTask rs t.comic = (insertTask rs cid (freshTask t.comic), true) := by
        unfold createDownloadTask
        rw [hid, ht]
        simp [isTerminal_not_live t.state hterm]
      refine ⟨?_, lookupTask_insert rs cid (freshTask t.comic), rfl⟩
      simp [resumeDownloadTask, ht, hterm, hcreate]
    · intro hterm
      refine ⟨by simp [resumeDownloadTask, ht, hterm], ?_, ?_⟩
      · intro hr
        rw [lookupTask_update_self rs cid t _ ht]
        simp [setState, hr]
      · intro hr
        rw [lookupTask_update_self rs cid t _ ht]
        simp [setState, hr]

/-- Witness for `c5_resume_behavior` at a dead `Completed` task: resume
re-creates a fresh `Pending` task under the same id. -/
theorem c5_resume_behavior_witness :
    resumeDownloadTask regDead 1 =
      Except.ok (insertTask regDead 1 (freshTask deadCompletedTask.comic)) ∧
    lookupTask (insertTask regDead 1 (freshTask deadCompletedTask.comic)) 1 =
      some (freshTask deadCompletedTask.comic) ∧
    (freshTask deadCompletedTask.comic).state = DownloadTaskState.Pending :=
  (((c5_resume_behavior regDead 1).2 deadCompletedTask (by decide)).1 rfl rfl)

/-! ### Claim C6 -/

/-- C6: `submit(comic)` is idempotent while a task is live.  If the
registry holds a task for `comic.id` in `{Pending, Downloading, Paused}`
the call is a no-op (registry unchanged, no task spawned); otherwise
exactly one fresh `Pending` task is inserted under `comic.id` and spawned,
and a second submit right after any submit is a no-op leaving exactly one
entry under that id. -/
theorem c6_submit_idempotent (rs : Registry) (c : Comic) :
    (∀ t, lookupTask rs c.id = some t → isLive t.state = true →
      createDownloadTask rs c = (rs, false)) ∧
    ((∀ t, lookupTask rs c.id = some t → isLive t.state = false) →
      createDownloadTask rs c = (insertTask rs c.id (freshTask c), true) ∧
      lookupTask (insertTask rs c.id (freshTask c)) c.id = some (freshTask c) ∧
      (freshTask c).state = DownloadTaskState.Pending) ∧
    (countKey rs c.id ≤ 1 →
      countKey (createDownloadTask rs c).1 c.id = 1 ∧
      createDownloadTask (createDownloadTask rs c).1 c = ((createDownloadTask rs c).1, false)) := by
  refine ⟨?_, ?_, ?_⟩
  · intro t ht hl
    simp [createDownloadTask, ht, hl]
  · intro hall
    cases h : lookupTask rs c.id with
    | none =>
      exact ⟨by simp [createDownloadTask, h], lookupTask_insert rs c.id (freshTask c), rfl⟩
    | some t =>
      have hl := hall t h
      exact ⟨by simp [createDownloadTask, h, hl], lookupTask_insert rs c.id (freshTask c), rfl⟩
  · intro hcnt
    cases h : lookupTask rs c.id with
    | none =>
      have hc : createDownloadTask rs c = (insertTask rs c.id (freshTask c), true) := by
        simp [createDownloadTask, h]
      rw [hc]
      constructor
      · unfold insertTask
        rw [h]
        simp [countKey_append_single, countKey_eq_zero rs c.id h]
      · have hlk := lookupTask_insert rs c.id (freshTask c)
        have hlive : isLive (freshTask c).state = true := rfl
        simp [createDownloadTask, hlk, hlive]
    | some t =>
      by_cases hl : isLive t.state = true
      · have hc : createDownloadTask rs c = (rs, false) := by
          simp [createDownloadTask, h, hl]
        rw [hc]
        exact ⟨Nat.le_antisymm hcnt (countKey_pos rs c.id t h), hc⟩
      · have hl' : isLive t.state = false := by
          cases hb : isLive t.state
          · rfl
          · exact absurd hb hl
        have hc : createDownloadTask rs c = (insertTask rs c.id (freshTask c), true) := by
          simp [createDownloadTask, h, hl']
        rw [hc]
        constructor
        · unfold insertTask
          rw [h]
          simp only [Option.isSome_some, if_true]
          rw [countKey_update]
          exact Nat.le_antisymm hcnt (countKey_pos rs c.id t h)
        · have hlk := lookupTask_insert rs c.id (freshTask c)
          have hlive : isLive (freshTask c).state = true := rfl
          simp [createDownloadTask, hlk, hlive]

/-- Witness for `c6_submit_idempotent`: submitting to an empty registry,
then submitting again, leaves exactly one entry and the second call is a
no-op. -/
theorem c6_submit_idempotent_witness :
    countKey (createDownloadTask ([] : Registry) comicEx).1 comicEx.id = 1 ∧
    createDownloadTask (createDownloadTask ([] : Registry) comicEx).1 comicEx =
      ((createDownloadTask ([] : Registry) comicEx).1, false) :=
  (c6_submit_idempotent [] comicEx).2.2 (by decide)

/-! ### Claim C10 -/

/-- C10: once a task's coordination loop has exited, no receiver of its
state channel remains, so a later `pause(id)` or `cancel(id)` on that
registry entry still returns `Ok` but leaves the task — and hence its
observable state — unchanged: the state-channel send fails and the failure
is only logged. -/
theorem c10_dead_task_state_frozen (rs : Registry) (cid : Int) (t : DownloadTask)
    (hl : lookupTask rs cid = some t) (hr : t.hasReceiver = false) :
    pauseDownloadTask rs cid = Except.ok rs ∧
    cancelDownloadTask rs cid = Except.ok rs := by
  have hset : ∀ s, setState t s = t := fun s => by simp [setState, hr]
  have hupd := updateTask_lookup_same rs cid t hl
  constructor
  · simp [pauseDownloadTask, hl, hset, hupd]
  · simp [cancelDownloadTask, hl, hset, hupd]

/-- Witness for `c10_dead_task_state_frozen` at a dead `Completed` task. -/
theorem c10_dead_task_state_frozen_witness :
    pauseDownloadTask regDead 1 = Except.ok regDead ∧
    cancelDownloadTask regDead 1 = Except.ok regDead :=
  c10_dead_task_state_frozen regDead 1 deadCompletedTask (by decide) rfl

/-! ### Claim C1 -/

/-- C1 (code bug): when saving the manifest `元数据.json` fails, the task
does NOT abort with `Failed` — `download_comic` logs the error and returns
with no state transition and no `download_task` event (download_manager.rs
lines 231-236), unlike the temp-directory-creation and final-rename
failure paths, which both send `Failed` and emit.  Evaluated at a comic
with two planned images whose metadata write fails: the pipeline result
carries no final state and no event. -/
theorem c1_metadata_failure_no_failed_state :
    downloadComic envMetaFail comicEx = ⟨none, [], 0, 2⟩ ∧
    (downloadComic envMetaFail comicEx).finalState ≠ some DownloadTaskState.Failed := by
  decide

/-! ### Claim C3 -/

/-- Counterexample to C3 as stated: a run where every image downloads
(`downloaded = total`) but the final rename fails ends in `Failed`, so
"terminal state is `Completed` iff `downloaded = total` at join time"
fails in the ⟸ direction. -/
theorem c3_completed_iff_equality_cex :
    ¬((downloadComic envRenameFail comicEx).finalState = some DownloadTaskState.Completed ↔
      (downloadComic envRenameFail comicEx).downloaded =
        (downloadComic envRenameFail comicEx).total) := by
  decide

/-- C3 (amended): for every pipeline run, `downloaded ≤ total`;
`Completed` implies `downloaded = total`; and a run that created its temp
dir, saved its metadata and reached the join with `downloaded = total`
ends `Completed` iff the final rename succeeds. -/
theorem c3_counter_bound (env : PipelineEnv) (c : Comic) :
    (downloadComic env c).downloaded ≤ (downloadComic env c).total ∧
    ((downloadComic env c).finalState = some DownloadTaskState.Completed →
      (downloadComic env c).downloaded = (downloadComic env c).total) ∧
    (env.createDirOk = true → env.saveMetadataOk = true →
      (downloadComic env c).downloaded = (downloadComic env c).total →
      ((downloadComic env c).finalState = some DownloadTaskState.Completed ↔
        env.renameOk = true)) := by
  obtain ⟨cd, sm, isucc, rn⟩ := env
  have hle : ((List.range (totalImgCount c)).filter isucc).length ≤ totalImgCount c := by
    calc ((List.range (totalImgCount c)).filter isucc).length
        ≤ (List.range (totalImgCount c)).length := List.length_filter_le _ _
      _ = totalImgCount c := List.length_range _
  cases cd with
  | false => simp [downloadComic]
  | true =>
    cases sm with
    | false => simp [downloadComic]
    | true =>
      by_cases hdt : ((List.range (totalImgCount c)).filter isucc).length = totalImgCount c
      · cases rn with
        | false => simp [downloadComic, hdt]
        | true => simp [downloadComic, hdt]
      · cases rn with
        | false => simp [downloadComic, hdt, hle]
        | true => simp [downloadComic, hdt, hle]

/-- Witness for `c3_counter_bound`: with every effect succeeding, the run
on the three-entry comic is `Completed` iff the rename succeeded. -/
theorem c3_counter_bound_witness :
    (downloadComic envAllOk comicEx).finalState = some DownloadTaskState.Completed ↔
      envAllOk.renameOk = true :=
  (c3_counter_bound envAllOk comicEx).2.2 rfl rfl (by decide)

/-! ### Claim C7 -/

theorem map_filter_swap {α β : Type} (f : α → β) (p : β → Bool) (l : List α) :
    (l.map f).filter p = (l.filter (fun a => p (f a))).map f := by
  induction l with
  | nil => rfl
  | cons a l ih =>
    by_cases h : p (f a) = true <;> simp [List.filter_cons, h, ih]

/-- C7: the download plan is `comic.img_list` minus every entry whose url
ends with `"shoucang.jpg"`, each remaining url prefixed with `"https:"`,
and `total_img_count` is the length of the plan; for an `img_list` of `n`
entries whose last entry is the sentinel (and, per the data model §3, no
earlier entry is), `total_img_count = n - 1`. -/
theorem c7_download_plan (c : Comic) (h1 : c.imgList ≠ [])
    (h2 : strEndsWith (c.imgList.getLast h1).url "shoucang.jpg" = true)
    (h3 : ∀ img ∈ c.imgList.dropLast, strEndsWith img.url "shoucang.jpg" = false) :
    buildImgUrls c =
      (c.imgList.filter (fun img => !(strEndsWith img.url "shoucang.jpg"))).map
        (fun img => "https:" ++ img.url) ∧
    totalImgCount c = c.imgList.length - 1 := by
  have heq : buildImgUrls c =
      (c.imgList.filter (fun img => !(strEndsWith img.url "shoucang.jpg"))).map
        (fun img => "https:" ++ img.url) := by
    unfold buildImgUrls
    rw [map_filter_swap, List.map_map]
    rfl
  refine ⟨heq, ?_⟩
  have hdrop : c.imgList.dropLast.filter
      (fun img => !(strEndsWith img.url "shoucang.jpg")) = c.imgList.dropLast :=
    List.filter_eq_self.mpr (fun img himg => by simp [h3 img himg])
  have hlast : [c.imgList.getLast h1].filter
      (fun img => !(strEndsWith img.url "shoucang.jpg")) = [] := by
    simp [List.filter_cons, h2]
  have hsplit : c.imgList.dropLast ++ [c.imgList.getLast h1] = c.imgList :=
    List.dropLast_append_getLast h1
  unfold totalImgCount
  rw [heq, List.length_map]
  conv_lhs => rw [← hsplit]
  rw [List.filter_append, hdrop, hlast, List.append_nil, List.length_dropLast]

/-- Witness for `c7_download_plan` on the comic of spec §8 scenario 1. -/
theorem c7_download_plan_witness :
    buildImgUrls comicEx =
      (comicEx.imgList.filter (fun img => !(strEndsWith img.url "shoucang.jpg"))).map
        (fun img => "https:" ++ img.url) ∧
    totalImgCount comicEx = comicEx.imgList.length - 1 :=
  c7_download_plan comicEx (by decide) (by decide) (by decide)

/-! ### Claim C2 -/

theorem shouldKeep_original (f : String) : shouldKeep DownloadFormat.Original f = false := by
  unfold shouldKeep
  cases pathExtension f
  · rfl
  · rfl

/-- Counterexample to C2 as stated: when the configured format is
`Original`, `extension()` is `none` and the keep-test
`Some(ext) == extension` holds for no file, so cleaning removes every file
— it is not a no-op. -/
theorem c2_original_not_noop_cex :
    cleanTempDownloadDirKeeps DownloadFormat.Original ["0001.jpg", "0002.png"] ≠
      ["0001.jpg", "0002.png"] := by
  decide

/-- C2 (amended): cleaning keeps exactly the files whose `Path::extension`
equals the configured `DownloadFormat`'s extension and removes all others;
with a concrete format the kept set is the files with that exact
extension, and with `Original` (extension `none`) every file is removed,
so cleaning is a no-op only on an empty directory. -/
theorem c2_clean_temp_dir (fmt : DownloadFormat) (files : List String) :
    (∀ ext, fmt.extension = some ext →
      cleanTempDownloadDirKeeps fmt files =
        files.filter (fun f => pathExtension f == some ext)) ∧
    (fmt = DownloadFormat.Original → cleanTempDownloadDirKeeps fmt files = []) := by
  constructor
  · intro ext hext
    unfold cleanTempDownloadDirKeeps
    apply List.filter_congr
    intro f _
    unfold shouldKeep
    cases hp : pathExtension f with
    | none => simp
    | some e => rw [hext]
  · intro h
    subst h
    simp [cleanTempDownloadDirKeeps, shouldKeep_original]

/-- Witness for `c2_clean_temp_dir` with the `Jpeg` format. -/
theorem c2_clean_temp_dir_witness :
    cleanTempDownloadDirKeeps DownloadFormat.Jpeg ["0001.jpg", "0002.png"] =
      ["0001.jpg", "0002.png"].filter (fun f => pathExtension f == some "jpg") :=
  (c2_clean_temp_dir DownloadFormat.Jpeg ["0001.jpg", "0002.png"]).1 "jpg" rfl

/-! ### Claim C8 -/

/-- Counterexample to C8 as stated: a 200 response with content-type
`image/png` while the configured download format is `Jpeg` is transcoded —
the call returns the converted bytes with format `Jpeg`, not the body
bytes with the source format `Png`. -/
theorem c8_success_not_source_cex :
    getImgDataAndFormat convertConst DownloadFormat.Jpeg ⟨200, some "image/png", [1, 2, 3]⟩ =
      Except.ok ([9], ImageFormat.Jpeg) ∧
    getImgDataAndFormat convertConst DownloadFormat.Jpeg ⟨200, some "image/png", [1, 2, 3]⟩ ≠
      Except.ok ([1, 2, 3], ImageFormat.Png) := by
  decide

/-- C8 (amended): `get_img_data_and_format` maps HTTP 429 to `RateLimited`
and any other non-200 status to `Protocol` with status and body; a missing
or unrecognized `content-type` (anything but `image/jpeg`, `image/png`,
`image/webp`) is a `Parse` error; on 200 with a recognized content-type it
returns the body bytes with the source format exactly when the target
format equals the source format — i.e. when the configured format is
`Original` or denotes the source format — and otherwise returns the
transcoded bytes with the configured target format. -/
theorem c8_fetch_image (convert : List Nat → ImageFormat → Option (List Nat))
    (fmt : DownloadFormat) (resp : ImgResponse) :
    (resp.status = 429 →
      getImgDataAndFormat convert fmt resp = Except.error ClientError.RateLimited) ∧
    (resp.status ≠ 429 → resp.status ≠ 200 →
      getImgDataAndFormat convert fmt resp =
        Except.error (ClientError.Protocol resp.status resp.body)) ∧
    (resp.status = 200 → resp.contentType = none →
      getImgDataAndFormat convert fmt resp = Except.error ClientError.ParseNoContentType) ∧
    (∀ ct, resp.status = 200 → resp.contentType = some ct → contentTypeFormat ct = none →
      getImgDataAndFormat convert fmt resp = Except.error (ClientError.ParseContentType ct)) ∧
    (∀ ct orig, resp.status = 200 → resp.contentType = some ct →
      contentTypeFormat ct = some orig →
      (targetFormat fmt orig = orig →
        getImgDataAndFormat convert fmt resp = Except.ok (resp.body, orig)) ∧
      (targetFormat fmt orig ≠ orig →
        getImgDataAndFormat convert fmt resp =
          match convert resp.body (targetFormat fmt orig) with
          | none => Except.error ClientError.ConvertError
          | some data => Except.ok (data, targetFormat fmt orig))) ∧
    (∀ orig, targetFormat fmt orig = orig ↔
      (fmt = DownloadFormat.Original ∨ concreteFormat fmt = some orig)) := by
  refine ⟨?_, ?_, ?_, ?_, ?_, ?_⟩
  · intro h
    simp [getImgDataAndFormat, h]
  · intro h4 h2
    simp [getImgDataAndFormat, h4, h2]
  · intro h2 hct
    simp [getImgDataAndFormat, h2, hct]
  · intro ct h2 hct hfmt
    simp [getImgDataAndFormat, h2, hct, hfmt]
  · intro ct orig h2 hct hfmt
    constructor
    · intro htgt
      simp [getImgDataAndFormat, h2, hct, hfmt, htgt]
    · intro htgt
      have hne : ¬(orig = targetFormat fmt orig) := fun hh => htgt hh.symm
      simp [getImgDataAndFormat, h2, hct, hfmt, hne]
  · intro orig
    cases fmt <;> cases orig <;> simp [targetFormat, concreteFormat]

/-- Witness for `c8_fetch_image`: a 429 response is `RateLimited`, and a
200 `image/png` response under the `Original` configuration returns the
body bytes with the source format. -/
theorem c8_fetch_image_witness :
    getImgDataAndFormat convertConst DownloadFormat.Jpeg ⟨429, none, []⟩ =
      Except.error ClientError.RateLimited ∧
    getImgDataAndFormat convertConst DownloadFormat.Original ⟨200, some "image/png", [1, 2, 3]⟩ =
      Except.ok ([1, 2, 3], ImageFormat.Png) :=
  ⟨(c8_fetch_image convertConst DownloadFormat.Jpeg ⟨429, none, []⟩).1 rfl,
   (((c8_fetch_image convertConst DownloadFormat.Original
        ⟨200, some "image/png", [1, 2, 3]⟩).2.2.2.2.1
      "image/png" ImageFormat.Png rfl rfl (by decide)).1 rfl)⟩

/-! ### Claim C9 -/

/-- C9: the image-list extraction takes the first line containing
`var imglist = `; errors with `NoImglistLine`, `NoLBracket`, `NoRBracket`
when the line, the first `[` or the last `]` is missing; otherwise it
takes the inclusive slice from the first `[` to the last `]`, rewrites the
bare `url:` / `caption:` keys into quoted keys, removes `fast_img_host+`,
replaces each backslash-quote pair by a quote, and JSON-decodes the
result, failing with `DecodeFailed` when decoding fails. -/
theorem c9_imglist_extraction (decode : List Char → Option (List ImgInImgList))
    (body : List Char) :
    (findImglistLine body = none →
      getImgList decode body = Except.error ImglistParseError.NoImglistLine) ∧
    (∀ line, findImglistLine body = some line →
      (lbracketIdx line = none →
        getImgList decode body = Except.error ImglistParseError.NoLBracket) ∧
      (∀ s, lbracketIdx line = some s →
        (rbracketIdx line = none →
          getImgList decode body = Except.error ImglistParseError.NoRBracket) ∧
        (∀ e, rbracketIdx line = some e →
          getImgList decode body =
            match decode (transformImglist ((line.drop s).take (e + 1 - s))) with
            | none => Except.error ImglistParseError.DecodeFailed
            | some imgs => Except.ok imgs))) := by
  refine ⟨?_, ?_⟩
  · intro h
    simp [getImgList, h]
  · intro line hline
    refine ⟨?_, ?_⟩
    · intro h
      simp [getImgList, hline, h]
    · intro s hs
      refine ⟨?_, ?_⟩
      · intro h
        simp [getImgList, hline, hs, h]
      · intro e he
        simp [getImgList, hline, hs, he]

/-- Witness for `c9_imglist_extraction` on a concrete single-line body. -/
theorem c9_imglist_extraction_witness :
    getImgList decodeEx imglistBodyEx =
      match decodeEx (transformImglist ((imglistLineEx.drop 14).take (20 + 1 - 14))) with
      | none => Except.error ImglistParseError.DecodeFailed
      | some imgs => Except.ok imgs :=
  ((((c9_imglist_extraction decodeEx imglistBodyEx).2 imglistLineEx (by decide)).2
      14 (by decide)).2) 20 (by decide)

end Wnacg
